import Mathlib

/-!
Verification of the CineBook seat-selection client and of the seat-reservation
engine it talks to.

The first part embeds the SeatSelection React component: the seat toggle
handler, the booking request it posts, the response handling for the 409 / 402 /
generic failure classes, the quoted total price, and the row grouping used for
display.  The second part embeds the backend ShowSeatMap claim/confirm/release
engine described by the specification.  Theorems about the behavioural claims
follow the definitions.
-/

/-- A seat as fetched from the show-seats endpoint of the backend.  The client
receives the unit price as a decimal string and always reads it through
parseFloat; the field `price` holds that parsed numeric value as a rational. -/
structure Seat where
  id : Nat
  row : String
  number : Nat
  type : String
  price : Rat
  is_available : Bool
deriving DecidableEq

/-- handleSeatClick: a click on an unavailable seat is ignored; otherwise the
seat id is toggled in the current selection (removed via filter when present,
appended when absent). -/
def handleSeatClick (seat : Seat) (selectedSeatIds : List Nat) : List Nat :=
  if seat.is_available = false then selectedSeatIds
  else if decide (seat.id ∈ selectedSeatIds) then
    selectedSeatIds.filter (fun id => decide (id ≠ seat.id))
  else
    selectedSeatIds ++ [seat.id]

/-- The selection obtained from a sequence of seat clicks starting from the
initial empty selection state. -/
def applyClicks (clicks : List Seat) : List Nat :=
  clicks.foldl (fun sel seat => handleSeatClick seat sel) []

/-- JSON values occurring in the booking request body. -/
inductive JsonValue where
  | num : Nat → JsonValue
  | arr : List Nat → JsonValue
deriving DecidableEq

/-- The body the client posts to the booking endpoint. -/
structure BookingRequestBody where
  show_id : Nat
  seat_ids : List Nat
deriving DecidableEq

/-- The field list of the serialized JSON body: exactly the two fields the
client places in the object handed to JSON.stringify. -/
def BookingRequestBody.fields (b : BookingRequestBody) : List (String × JsonValue) :=
  [("show_id", JsonValue.num b.show_id), ("seat_ids", JsonValue.arr b.seat_ids)]

/-- Request side of handleBooking: with an empty selection the handler returns
without issuing any request; otherwise it posts the show id and the selected
seat ids. -/
def handleBookingRequest (showId : Nat) (selectedSeatIds : List Nat) :
    Option BookingRequestBody :=
  if selectedSeatIds = [] then none
  else some { show_id := showId, seat_ids := selectedSeatIds }

/-- The user-visible outcome of one booking attempt: the error message set by
the handler, whether fetchSeats() was called again, and the selection state
after the handler ran. -/
structure BookingOutcome where
  bookingSuccess : Bool
  bookingError : String
  refetchSeats : Bool
  selectionAfter : List Nat
deriving DecidableEq

/-- Response side of handleBooking: on an ok (2xx) response the success screen
is shown; on 409 the conflict message surfaces the response detail, the seats
are re-fetched and the selection is cleared; on 402 a payment-failure message is
shown and the selection is kept; any other status yields the generic failure
message.  An absent detail field is modelled as the empty string, matching the
falsy test the client performs on it. -/
def handleBookingResponse (status : Nat) (detail : String)
    (selectedSeatIds : List Nat) : BookingOutcome :=
  if 200 ≤ status ∧ status < 300 then
    { bookingSuccess := true, bookingError := "", refetchSeats := false,
      selectionAfter := selectedSeatIds }
  else if status = 409 then
    { bookingSuccess := false,
      bookingError :=
        "Unavailable: " ++ (if detail = "" then "Some seats were just taken." else detail),
      refetchSeats := true, selectionAfter := [] }
  else if status = 402 then
    { bookingSuccess := false,
      bookingError :=
        "Payment Failed: " ++ (if detail = "" then "Please check your card." else detail),
      refetchSeats := false, selectionAfter := selectedSeatIds }
  else
    { bookingSuccess := false,
      bookingError := (if detail = "" then "Booking failed. Please try again." else detail),
      refetchSeats := false, selectionAfter := selectedSeatIds }

/-- The seats whose id is currently selected, as filtered by the component. -/
def selectedSeats (seats : List Seat) (selectedSeatIds : List Nat) : List Seat :=
  seats.filter (fun seat => decide (seat.id ∈ selectedSeatIds))

/-- The displayed total: the reduce over the selected seats of their parsed unit
prices, starting from 0. -/
def totalPrice (seats : List Seat) (selectedSeatIds : List Nat) : Rat :=
  (selectedSeats seats selectedSeatIds).foldl (fun sum seat => sum + seat.price) 0

/-- One step of the reduce building seatsByRow: push the seat onto its row
group, creating the group (at the end, in first-occurrence order, as JS object
string keys do) when the row key is absent. -/
def insertSeat (acc : List (String × List Seat)) (seat : Seat) :
    List (String × List Seat) :=
  if acc.any (fun e => decide (e.1 = seat.row)) then
    acc.map (fun e => if e.1 = seat.row then (e.1, e.2 ++ [seat]) else e)
  else acc ++ [(seat.row, [seat])]

/-- seatsByRow: the reduce of the fetched seats into an association of row label
to the seats of that row. -/
def seatsByRow (seats : List Seat) : List (String × List Seat) :=
  seats.foldl insertSeat []

/-- Key access on the association built by seatsByRow. -/
def lookupRow : List (String × List Seat) → String → Option (List Seat)
  | [], _ => none
  | e :: rest, r => if e.1 = r then some e.2 else lookupRow rest r

/-- The row labels in the order they are rendered: Object.keys(seatsByRow)
sorted lexicographically by the default sort. -/
def rows (seats : List Seat) : List String :=
  List.insertionSort (fun a b => a ≤ b) ((seatsByRow seats).map Prod.fst)

/-- The seats in the order the grid renders them: row groups in sorted row
order, each group in insertion order. -/
def displayedSeats (seats : List Seat) : List Seat :=
  ((rows seats).map (fun r => (lookupRow (seatsByRow seats) r).getD [])).flatten

/-- Modelled from the spec: status of one SeatRecord of the booking engine,
which is not part of the reviewed frontend sources.  A seat is AVAILABLE,
HELD(holderToken, expiresAt), or BOOKED(bookingId). -/
inductive SeatStatus where
  | available : SeatStatus
  | held : Nat → Nat → SeatStatus
  | booked : Nat → SeatStatus
deriving DecidableEq

/-- Modelled from the spec: a SeatRecord of the booking engine (row label, seat
number, seat class, unit price, status), the unit of contention. -/
structure SeatRecord where
  seatId : Nat
  rowLabel : String
  seatNumber : Nat
  seatClass : String
  unitPrice : Nat
  status : SeatStatus
deriving DecidableEq

/-- Modelled from the spec: the ShowSeatMap owning all SeatRecords of one show;
the engine itself is absent from the reviewed sources. -/
structure ShowSeatMap where
  showId : Nat
  seats : List SeatRecord
deriving DecidableEq

/-- Modelled from the spec: result of a claim, either Claimed(priceSnapshot) or
Rejected(unavailableSeatIds). -/
inductive ClaimResult where
  | claimed : Nat → ClaimResult
  | rejected : List Nat → ClaimResult
deriving DecidableEq

/-- Modelled from the spec: result of confirm/release, ok or StaleHold. -/
inductive HoldResult where
  | ok : HoldResult
  | staleHold : HoldResult
deriving DecidableEq

/-- Whether some seat with this id is currently AVAILABLE. -/
def ShowSeatMap.isAvailable (m : ShowSeatMap) (id : Nat) : Bool :=
  m.seats.any (fun s => decide (s.seatId = id) && decide (s.status = SeatStatus.available))

/-- Modelled from the spec: ShowSeatMap.claim, absent from the reviewed
sources.  All-or-nothing: when every requested seat is AVAILABLE they all move
to HELD(holderToken, now+holdDuration) and the price snapshot is returned;
otherwise the call fails with exactly the unavailable requested ids and no seat
changes state.  Per-show operations are serialized, so the operation is one
indivisible step. -/
def ShowSeatMap.claim (m : ShowSeatMap) (seatIds : List Nat)
    (holderToken now holdDuration : Nat) : ClaimResult × ShowSeatMap :=
  if seatIds.filter (fun id => ! m.isAvailable id) = [] then
    (ClaimResult.claimed
       (((m.seats.filter (fun s => decide (s.seatId ∈ seatIds))).map
           SeatRecord.unitPrice).sum),
     { m with seats := m.seats.map (fun s =>
         if decide (s.seatId ∈ seatIds) then
           { s with status := SeatStatus.held holderToken (now + holdDuration) }
         else s) })
  else
    (ClaimResult.rejected (seatIds.filter (fun id => ! m.isAvailable id)), m)

/-- Whether the seat carries an unexpired hold of this token at this time. -/
def seatHeldBy (s : SeatRecord) (holderToken now : Nat) : Bool :=
  match s.status with
  | SeatStatus.held t e => decide (t = holderToken ∧ now ≤ e)
  | _ => false

/-- Whether the seat carries a hold of this token, expired or not. -/
def seatHeldByToken (s : SeatRecord) (holderToken : Nat) : Bool :=
  match s.status with
  | SeatStatus.held t _ => decide (t = holderToken)
  | _ => false

/-- Modelled from the spec: ShowSeatMap.confirm, absent from the reviewed
sources.  Moves held seats to BOOKED(bookingId); fails with StaleHold when the
hold token does not match or the hold has expired. -/
def ShowSeatMap.confirm (m : ShowSeatMap) (seatIds : List Nat)
    (holderToken bookingId now : Nat) : HoldResult × ShowSeatMap :=
  if seatIds.all (fun id => m.seats.any (fun s =>
      decide (s.seatId = id) && seatHeldBy s holderToken now)) then
    (HoldResult.ok, { m with seats := m.seats.map (fun s =>
        if decide (s.seatId ∈ seatIds) then
          { s with status := SeatStatus.booked bookingId }
        else s) })
  else (HoldResult.staleHold, m)

/-- Modelled from the spec: ShowSeatMap.release, absent from the reviewed
sources.  Returns held seats to AVAILABLE; fails with StaleHold when the hold
token does not match. -/
def ShowSeatMap.release (m : ShowSeatMap) (seatIds : List Nat)
    (holderToken : Nat) : HoldResult × ShowSeatMap :=
  if seatIds.all (fun id => m.seats.any (fun s =>
      decide (s.seatId = id) && seatHeldByToken s holderToken)) then
    (HoldResult.ok, { m with seats := m.seats.map (fun s =>
        if decide (s.seatId ∈ seatIds) then
          { s with status := SeatStatus.available }
        else s) })
  else (HoldResult.staleHold, m)

/-- Modelled from the spec: one HoldExpiryReaper sweep, absent from the reviewed
sources.  Conservatively releases exactly the holds whose deadline has strictly
passed. -/
def ShowSeatMap.reap (m : ShowSeatMap) (now : Nat) : ShowSeatMap :=
  { m with seats := m.seats.map (fun s =>
      match s.status with
      | SeatStatus.held _ e =>
        if e < now then { s with status := SeatStatus.available } else s
      | _ => s) }

/-- Modelled from the spec: the operations serialized by one ShowSeatMap, in
the order the per-show critical section admits them. -/
inductive SeatOp where
  | claimOp : List Nat → Nat → Nat → Nat → SeatOp
  | confirmOp : List Nat → Nat → Nat → Nat → SeatOp
  | releaseOp : List Nat → Nat → SeatOp
  | reapOp : Nat → SeatOp
deriving DecidableEq

/-- State after one serialized operation. -/
def execOp (m : ShowSeatMap) : SeatOp → ShowSeatMap
  | SeatOp.claimOp ids t now dur => (m.claim ids t now dur).2
  | SeatOp.confirmOp ids t b now => (m.confirm ids t b now).2
  | SeatOp.releaseOp ids t => (m.release ids t).2
  | SeatOp.reapOp now => m.reap now

/-- State after a sequence of serialized operations. -/
def execOps (m : ShowSeatMap) (ops : List SeatOp) : ShowSeatMap :=
  ops.foldl execOp m

/-- An operation that does not end a hold of token t1 expiring at e: any claim,
a confirm or release by a different holder, or a reaper sweep before the
deadline has strictly passed. -/
def preservesHold (t1 e : Nat) : SeatOp → Prop
  | SeatOp.claimOp _ _ _ _ => True
  | SeatOp.confirmOp _ t _ _ => t ≠ t1
  | SeatOp.releaseOp _ t => t ≠ t1
  | SeatOp.reapOp now => now ≤ e

/-- Every seat record with this id exists and is HELD by this token with this
expiry. -/
def allHeldBy (m : ShowSeatMap) (id holderToken expiresAt : Nat) : Prop :=
  (∃ s ∈ m.seats, s.seatId = id) ∧
  ∀ s ∈ m.seats, s.seatId = id →
    s.status = SeatStatus.held holderToken expiresAt

/-- A concrete three-seat show used to instantiate the theorems. -/
def demoShowSeatMap : ShowSeatMap :=
  { showId := 1,
    seats :=
      [ { seatId := 1, rowLabel := "A", seatNumber := 1, seatClass := "Normal",
          unitPrice := 200, status := SeatStatus.available },
        { seatId := 2, rowLabel := "A", seatNumber := 2, seatClass := "Normal",
          unitPrice := 200, status := SeatStatus.available },
        { seatId := 3, rowLabel := "A", seatNumber := 3, seatClass := "Normal",
          unitPrice := 250, status := SeatStatus.available } ] }

/-- The demo show after one customer claimed seats 1 and 2. -/
def demoHeldMap : ShowSeatMap := (demoShowSeatMap.claim [1, 2] 10 0 300).2

/-- A concrete fetched seat list used to instantiate the client theorems. -/
def demoSeats : List Seat :=
  [ { id := 1, row := "B", number := 1, type := "Premium", price := 250,
      is_available := true },
    { id := 2, row := "A", number := 2, type := "Normal", price := 200,
      is_available := true },
    { id := 3, row := "A", number := 1, type := "Normal", price := 200,
      is_available := false } ]

/-! ### Helper lemmas: seat clicks and the posted request -/

theorem handleSeatClick_nodup (seat : Seat) (sel : List Nat) (h : sel.Nodup) :
    (handleSeatClick seat sel).Nodup := by
  unfold handleSeatClick
  split
  · exact h
  · split
    · exact h.filter _
    · rename_i h1 h2
      simp only [decide_eq_true_eq] at h2
      simp [List.nodup_append, h, h2]

theorem foldl_clicks_nodup (clicks : List Seat) :
    ∀ sel : List Nat, sel.Nodup →
      (clicks.foldl (fun sel seat => handleSeatClick seat sel) sel).Nodup := by
  induction clicks with
  | nil => intro sel h; exact h
  | cons c cs ih => intro sel h; exact ih _ (handleSeatClick_nodup c sel h)

theorem applyClicks_nodup (clicks : List Seat) : (applyClicks clicks).Nodup :=
  foldl_clicks_nodup clicks [] List.nodup_nil

theorem handleBookingRequest_some_inv (showId : Nat) (sel : List Nat)
    (b : BookingRequestBody) (hb : handleBookingRequest showId sel = some b) :
    b = { show_id := showId, seat_ids := sel } ∧ sel ≠ [] := by
  unfold handleBookingRequest at hb
  split at hb
  · exact absurd hb (by simp)
  · rename_i hne
    cases hb
    exact ⟨rfl, hne⟩

theorem foldl_price_acc (l : List Seat) : ∀ a : Rat,
    l.foldl (fun sum seat => sum + seat.price) a = a + (l.map Seat.price).sum := by
  induction l with
  | nil => intro a; simp
  | cons s t ih => intro a; simp [ih, add_assoc]

/-! ### Helper lemmas: the row grouping -/

theorem any_key_iff (acc : List (String × List Seat)) (row : String) :
    (acc.any (fun e => decide (e.1 = row)) = true) ↔ row ∈ acc.map Prod.fst := by
  simp [List.any_eq_true, List.mem_map]

theorem keys_map_update (acc : List (String × List Seat)) (row : String) (x : Seat) :
    (acc.map (fun e => if e.1 = row then (e.1, e.2 ++ [x]) else e)).map Prod.fst
      = acc.map Prod.fst := by
  induction acc with
  | nil => rfl
  | cons e rest ih =>
    by_cases h : e.1 = row <;> simp [h, ih]

theorem keys_insertSeat (acc : List (String × List Seat)) (seat : Seat) :
    (insertSeat acc seat).map Prod.fst =
      if seat.row ∈ acc.map Prod.fst then acc.map Prod.fst
      else acc.map Prod.fst ++ [seat.row] := by
  unfold insertSeat
  by_cases h : seat.row ∈ acc.map Prod.fst
  · rw [if_pos ((any_key_iff acc seat.row).mpr h), if_pos h]
    exact keys_map_update acc seat.row seat
  · rw [if_neg (fun hc => h ((any_key_iff acc seat.row).mp hc)), if_neg h]
    simp

theorem lookupRow_isSome_iff (acc : List (String × List Seat)) (r : String) :
    (lookupRow acc r).isSome = true ↔ r ∈ acc.map Prod.fst := by
  induction acc with
  | nil => simp [lookupRow]
  | cons e rest ih =>
    by_cases h : e.1 = r
    · simp [lookupRow, h]
    · simp only [lookupRow, if_neg h, List.map_cons, List.mem_cons, ih]
      constructor
      · intro hm; exact Or.inr hm
      · rintro (hm | hm)
        · exact absurd hm.symm h
        · exact hm

theorem lookupRow_map_update (acc : List (String × List Seat)) (row : String)
    (x : Seat) (r : String) :
    lookupRow (acc.map (fun e => if e.1 = row then (e.1, e.2 ++ [x]) else e)) r
      = if r = row then (lookupRow acc r).map (fun g => g ++ [x])
        else lookupRow acc r := by
  induction acc with
  | nil => cases hr : decide (r = row) <;> simp [lookupRow]
  | cons e rest ih =>
    by_cases her : e.1 = r
    · by_cases hr : r = row
      · have he : e.1 = row := her.trans hr
        simp [lookupRow, he, her, hr]
      · have he : ¬ e.1 = row := fun h => hr (her.symm.trans h)
        simp [lookupRow, he, her, hr]
    · by_cases he : e.1 = row
      · have hr : ¬ r = row := fun h => her (he.trans h.symm)
        have hrow : ¬ row = r := fun h => hr h.symm
        simp [lookupRow, he, her, hr, hrow, ih]
      · simp [lookupRow, he, her, ih]

theorem lookupRow_append (acc : List (String × List Seat))
    (e : String × List Seat) (r : String) :
    lookupRow (acc ++ [e]) r =
      match lookupRow acc r with
      | some g => some g
      | none => if e.1 = r then some e.2 else none := by
  induction acc with
  | nil => simp [lookupRow]
  | cons a rest ih =>
    by_cases h : a.1 = r <;> simp [lookupRow, h, ih]

theorem lookupRow_insertSeat (acc : List (String × List Seat)) (seat : Seat)
    (r : String) :
    lookupRow (insertSeat acc seat) r =
      if r = seat.row then some ((lookupRow acc seat.row).getD [] ++ [seat])
      else lookupRow acc r := by
  unfold insertSeat
  by_cases hk : seat.row ∈ acc.map Prod.fst
  · rw [if_pos ((any_key_iff acc seat.row).mpr hk), lookupRow_map_update]
    by_cases hr : r = seat.row
    · subst hr
      obtain ⟨g, hg⟩ := Option.isSome_iff_exists.mp
        ((lookupRow_isSome_iff acc seat.row).mpr hk)
      simp [hg]
    · simp [hr]
  · rw [if_neg (fun hc => hk ((any_key_iff acc seat.row).mp hc)), lookupRow_append]
    have hnone : lookupRow acc seat.row = none := by
      cases hcase : lookupRow acc seat.row with
      | none => rfl
      | some g =>
        exact absurd ((lookupRow_isSome_iff acc seat.row).mp (by simp [hcase])) hk
    by_cases hr : r = seat.row
    · subst hr; simp [hnone]
    · have hsr : ¬ seat.row = r := fun h => hr h.symm
      cases hcase : lookupRow acc r with
      | some g => simp [hcase, hr]
      | none => simp [hcase, hr, hsr, hnone]

theorem lookupRow_foldl (seats : List Seat) :
    ∀ (acc : List (String × List Seat)) (r : String),
    lookupRow (seats.foldl insertSeat acc) r =
      match lookupRow acc r with
      | some g => some (g ++ seats.filter (fun s => decide (s.row = r)))
      | none =>
        if seats.any (fun s => decide (s.row = r)) then
          some (seats.filter (fun s => decide (s.row = r)))
        else none := by
  induction seats with
  | nil =>
    intro acc r
    cases h : lookupRow acc r <;> simp [h]
  | cons s rest ih =>
    intro acc r
    rw [List.foldl_cons, ih (insertSeat acc s) r, lookupRow_insertSeat]
    by_cases hr : r = s.row
    · subst hr
      rw [if_pos rfl]
      have hfilter : (s :: rest).filter (fun t => decide (t.row = s.row)) =
          s :: rest.filter (fun t => decide (t.row = s.row)) := by
        simp [List.filter_cons]
      have hany : ((s :: rest).any (fun t => decide (t.row = s.row))) = true := by
        simp [List.any_cons]
      cases h : lookupRow acc s.row with
      | some g => simp [h, hfilter]
      | none => simp [h, hfilter, hany]
    · rw [if_neg hr]
      have hsr : ¬ s.row = r := fun h => hr h.symm
      have hfilter : (s :: rest).filter (fun t => decide (t.row = r)) =
          rest.filter (fun t => decide (t.row = r)) := by
        simp [List.filter_cons, hsr]
      have hany : ((s :: rest).any (fun t => decide (t.row = r))) =
          rest.any (fun t => decide (t.row = r)) := by
        simp [List.any_cons, hsr]
      cases h : lookupRow acc r <;> simp [h, hfilter, hany]

theorem lookupRow_seatsByRow (seats : List Seat) (r : String) :
    lookupRow (seatsByRow seats) r =
      if seats.any (fun s => decide (s.row = r)) then
        some (seats.filter (fun s => decide (s.row = r)))
      else none := by
  have h := lookupRow_foldl seats [] r
  simpa [seatsByRow, lookupRow] using h

theorem keys_foldl_nodup (seats : List Seat) :
    ∀ acc : List (String × List Seat),
    (acc.map Prod.fst).Nodup → ((seats.foldl insertSeat acc).map Prod.fst).Nodup := by
  induction seats with
  | nil => intro acc h; exact h
  | cons s rest ih =>
    intro acc h
    rw [List.foldl_cons]
    apply ih
    rw [keys_insertSeat]
    by_cases hk : s.row ∈ acc.map Prod.fst
    · simpa [hk] using h
    · rw [if_neg hk]
      refine List.Nodup.append h (List.nodup_singleton _) ?_
      intro a ha hb
      have hrow : a = s.row := by simpa using hb
      exact hk (hrow ▸ ha)

theorem keys_foldl_mem (seats : List Seat) :
    ∀ (acc : List (String × List Seat)) (r : String),
    (r ∈ (seats.foldl insertSeat acc).map Prod.fst ↔
      r ∈ acc.map Prod.fst ∨ ∃ s ∈ seats, s.row = r) := by
  induction seats with
  | nil => intro acc r; simp
  | cons s rest ih =>
    intro acc r
    rw [List.foldl_cons, ih (insertSeat acc s) r, keys_insertSeat]
    by_cases hk : s.row ∈ acc.map Prod.fst
    · rw [if_pos hk]
      constructor
      · rintro (h | ⟨t, ht, hrow⟩)
        · exact Or.inl h
        · exact Or.inr ⟨t, List.mem_cons_of_mem s ht, hrow⟩
      · rintro (h | ⟨t, ht, hrow⟩)
        · exact Or.inl h
        · rcases List.mem_cons.mp ht with h1 | h1
          · exact Or.inl (by rw [← hrow, h1]; exact hk)
          · exact Or.inr ⟨t, h1, hrow⟩
    · rw [if_neg hk]
      simp only [List.mem_append, List.mem_singleton]
      constructor
      · rintro ((h | h) | ⟨t, ht, hrow⟩)
        · exact Or.inl h
        · exact Or.inr ⟨s, List.mem_cons_self s rest, h.symm⟩
        · exact Or.inr ⟨t, List.mem_cons_of_mem s ht, hrow⟩
      · rintro (h | ⟨t, ht, hrow⟩)
        · exact Or.inl (Or.inl h)
        · rcases List.mem_cons.mp ht with h1 | h1
          · exact Or.inl (Or.inr (by rw [← hrow, h1]))
          · exact Or.inr ⟨t, h1, hrow⟩

theorem keys_seatsByRow_nodup (seats : List Seat) :
    ((seatsByRow seats).map Prod.fst).Nodup :=
  keys_foldl_nodup seats [] (by simp)

theorem keys_seatsByRow_mem (seats : List Seat) (r : String) :
    r ∈ (seatsByRow seats).map Prod.fst ↔ ∃ s ∈ seats, s.row = r := by
  have h := keys_foldl_mem seats [] r
  simpa using h

theorem count_filter_eq (p : Seat → Bool) (l : List Seat) (a : Seat) :
    (l.filter p).count a = if p a = true then l.count a else 0 := by
  induction l with
  | nil => simp
  | cons x t ih =>
    rw [List.filter_cons]
    by_cases hax : x = a
    · subst hax
      by_cases hpx : p x = true <;> simp [hpx, ih]
    · have hxa : ¬ a = x := fun h => hax h.symm
      by_cases hpx : p x = true <;> simp [hpx, List.count_cons, hxa, ih]

theorem sum_ite_mem (keys : List String) (x : String) (c : Nat) (h : keys.Nodup) :
    (keys.map (fun r => if x = r then c else 0)).sum = if x ∈ keys then c else 0 := by
  induction keys with
  | nil => simp
  | cons k t ih =>
    rw [List.map_cons, List.sum_cons, ih (List.Nodup.of_cons h)]
    by_cases hk : x = k
    · subst hk
      have hx : x ∉ t := (List.nodup_cons.mp h).1
      simp [hx]
    · simp [hk]

theorem displayedSeats_perm (seats : List Seat) :
    List.Perm (displayedSeats seats) seats := by
  rw [List.perm_iff_count]
  intro a
  rw [displayedSeats, List.count_flatten, List.map_map]
  have hrowsperm : List.Perm (rows seats) ((seatsByRow seats).map Prod.fst) :=
    List.perm_insertionSort _ _
  rw [List.Perm.sum_eq (hrowsperm.map _)]
  have hpoint : ∀ r ∈ (seatsByRow seats).map Prod.fst,
      (List.count a ∘ fun r => (lookupRow (seatsByRow seats) r).getD []) r
        = (fun r => if a.row = r then seats.count a else 0) r := by
    intro r hr
    have hany : seats.any (fun s => decide (s.row = r)) = true := by
      obtain ⟨s, hs, hrow⟩ := (keys_seatsByRow_mem seats r).mp hr
      simp only [List.any_eq_true, decide_eq_true_eq]
      exact ⟨s, hs, hrow⟩
    simp only [Function.comp_apply, lookupRow_seatsByRow, hany, if_true,
      Option.getD_some]
    rw [count_filter_eq]
    by_cases hra : a.row = r <;> simp [hra]
  rw [List.map_congr_left hpoint]
  rw [sum_ite_mem _ _ _ (keys_seatsByRow_nodup seats)]
  by_cases hmem : a.row ∈ (seatsByRow seats).map Prod.fst
  · simp [hmem]
  · rw [if_neg hmem]
    have hnot : a ∉ seats := fun ha =>
      hmem ((keys_seatsByRow_mem seats a.row).mpr ⟨a, ha, rfl⟩)
    rw [eq_comm, List.count_eq_zero]
    exact hnot

theorem rows_sorted (seats : List Seat) :
    List.Sorted (fun a b : String => a ≤ b) (rows seats) :=
  List.sorted_insertionSort _ _

/-! ### Helper lemmas: the seat-reservation engine -/

theorem isAvailable_eq_false_of_allHeldBy (m : ShowSeatMap) (id t1 e : Nat)
    (h : allHeldBy m id t1 e) : m.isAvailable id = false := by
  rw [ShowSeatMap.isAvailable]
  rw [List.any_eq_false]
  intro s hs
  by_cases hid : s.seatId = id
  · have := h.2 s hs hid
    simp [this]
  · simp [hid]

theorem any_eq_any {α : Type} (l : List α) (p q : α → Bool)
    (h : ∀ a ∈ l, p a = q a) : l.any p = l.any q := by
  induction l with
  | nil => rfl
  | cons x t ih =>
    simp only [List.any_cons, h x (List.mem_cons_self x t),
      ih (fun a ha => h a (List.mem_cons_of_mem x ha))]

theorem allHeldBy_map (m : ShowSeatMap) (id t1 e : Nat)
    (upd : SeatRecord → SeatRecord)
    (hkeep : ∀ s, (upd s).seatId = s.seatId)
    (hfix : ∀ s ∈ m.seats, s.seatId = id → upd s = s)
    (hheld : allHeldBy m id t1 e) :
    allHeldBy { m with seats := m.seats.map upd } id t1 e := by
  constructor
  · obtain ⟨s, hs, hid⟩ := hheld.1
    exact ⟨upd s, List.mem_map_of_mem upd hs, (hkeep s).trans hid⟩
  · intro s' hs' hid'
    obtain ⟨s, hs, rfl⟩ := List.mem_map.mp hs'
    have hsid : s.seatId = id := (hkeep s).symm.trans hid'
    rw [hfix s hs hsid]
    exact hheld.2 s hs hsid

theorem isAvailable_map (m : ShowSeatMap) (j : Nat)
    (upd : SeatRecord → SeatRecord)
    (hkeep : ∀ s, (upd s).seatId = s.seatId)
    (hfix : ∀ s ∈ m.seats, s.seatId = j → upd s = s) :
    ShowSeatMap.isAvailable { m with seats := m.seats.map upd } j
      = m.isAvailable j := by
  show (m.seats.map upd).any _ = m.seats.any _
  rw [List.any_map]
  apply any_eq_any
  intro s hs
  by_cases hid : s.seatId = j
  · rw [Function.comp_apply, hfix s hs hid]
  · have : (upd s).seatId = s.seatId := hkeep s
    simp [Function.comp_apply, this, hid]

theorem claim_rejected_of_overlap (m : ShowSeatMap) (id t1 e : Nat)
    (S : List Nat) (t now dur : Nat)
    (hheld : allHeldBy m id t1 e) (hmem : id ∈ S) :
    m.claim S t now dur
      = (ClaimResult.rejected (S.filter (fun i => ! m.isAvailable i)), m) ∧
    id ∈ S.filter (fun i => ! m.isAvailable i) := by
  have hav := isAvailable_eq_false_of_allHeldBy m id t1 e hheld
  have hidf : id ∈ S.filter (fun i => ! m.isAvailable i) :=
    List.mem_filter.mpr ⟨hmem, by simp [hav]⟩
  refine ⟨?_, hidf⟩
  rw [ShowSeatMap.claim, if_neg (List.ne_nil_of_mem hidf)]

theorem confirm_stale_of_overlap (m : ShowSeatMap) (id t1 e : Nat)
    (S : List Nat) (t b now : Nat)
    (hheld : allHeldBy m id t1 e) (hmem : id ∈ S) (ht : t ≠ t1) :
    m.confirm S t b now = (HoldResult.staleHold, m) := by
  rw [ShowSeatMap.confirm, if_neg]
  rw [List.all_eq_true]
  intro hall
  have h1 := hall id hmem
  rw [List.any_eq_true] at h1
  obtain ⟨s, hs, hP⟩ := h1
  rw [Bool.and_eq_true, decide_eq_true_eq] at hP
  obtain ⟨hsid, hheldby⟩ := hP
  have hst := hheld.2 s hs hsid
  rw [seatHeldBy, hst] at hheldby
  rw [decide_eq_true_eq] at hheldby
  exact ht hheldby.1.symm

theorem release_stale_of_overlap (m : ShowSeatMap) (id t1 e : Nat)
    (S : List Nat) (t : Nat)
    (hheld : allHeldBy m id t1 e) (hmem : id ∈ S) (ht : t ≠ t1) :
    m.release S t = (HoldResult.staleHold, m) := by
  rw [ShowSeatMap.release, if_neg]
  rw [List.all_eq_true]
  intro hall
  have h1 := hall id hmem
  rw [List.any_eq_true] at h1
  obtain ⟨s, hs, hP⟩ := h1
  rw [Bool.and_eq_true, decide_eq_true_eq] at hP
  obtain ⟨hsid, hheldby⟩ := hP
  have hst := hheld.2 s hs hsid
  rw [seatHeldByToken, hst] at hheldby
  rw [decide_eq_true_eq] at hheldby
  exact ht hheldby.symm

theorem hold_invariant_op (m : ShowSeatMap) (id t1 e : Nat) (op : SeatOp)
    (hheld : allHeldBy m id t1 e) (hop : preservesHold t1 e op) :
    allHeldBy (execOp m op) id t1 e := by
  cases op with
  | claimOp S t now dur =>
    show allHeldBy (m.claim S t now dur).2 id t1 e
    by_cases hmem : id ∈ S
    · rw [(claim_rejected_of_overlap m id t1 e S t now dur hheld hmem).1]
      exact hheld
    · rw [ShowSeatMap.claim]
      split
      · exact allHeldBy_map m id t1 e _
          (fun s => by by_cases hb : s.seatId ∈ S <;> simp [hb])
          (fun s hs hsid => by rw [if_neg (by simp [hsid, hmem])])
          hheld
      · exact hheld
  | confirmOp S t b now =>
    show allHeldBy (m.confirm S t b now).2 id t1 e
    have ht : t ≠ t1 := hop
    by_cases hmem : id ∈ S
    · rw [confirm_stale_of_overlap m id t1 e S t b now hheld hmem ht]
      exact hheld
    · rw [ShowSeatMap.confirm]
      split
      · exact allHeldBy_map m id t1 e _
          (fun s => by by_cases hb : s.seatId ∈ S <;> simp [hb])
          (fun s hs hsid => by rw [if_neg (by simp [hsid, hmem])])
          hheld
      · exact hheld
  | releaseOp S t =>
    show allHeldBy (m.release S t).2 id t1 e
    have ht : t ≠ t1 := hop
    by_cases hmem : id ∈ S
    · rw [release_stale_of_overlap m id t1 e S t hheld hmem ht]
      exact hheld
    · rw [ShowSeatMap.release]
      split
      · exact allHeldBy_map m id t1 e _
          (fun s => by by_cases hb : s.seatId ∈ S <;> simp [hb])
          (fun s hs hsid => by rw [if_neg (by simp [hsid, hmem])])
          hheld
      · exact hheld
  | reapOp now =>
    show allHeldBy (m.reap now) id t1 e
    have hnow : now ≤ e := hop
    rw [ShowSeatMap.reap]
    refine allHeldBy_map m id t1 e _ ?_ ?_ hheld
    · intro s
      rcases hst : s.status with _ | ⟨t', e'⟩ | b'
      · simp [hst]
      · by_cases hlt : e' < now <;> simp [hst, hlt]
      · simp [hst]
    · intro s hs hsid
      rw [hheld.2 s hs hsid]
      simp [Nat.not_lt.mpr hnow]

theorem hold_invariant_ops (ops : List SeatOp) :
    ∀ (m : ShowSeatMap) (id t1 e : Nat),
    allHeldBy m id t1 e → (∀ op ∈ ops, preservesHold t1 e op) →
    allHeldBy (execOps m ops) id t1 e := by
  induction ops with
  | nil => intro m id t1 e h _; exact h
  | cons op rest ih =>
    intro m id t1 e h hops
    rw [execOps, List.foldl_cons]
    exact ih (execOp m op) id t1 e
      (hold_invariant_op m id t1 e op h (hops op (List.mem_cons_self op rest)))
      (fun o ho => hops o (List.mem_cons_of_mem op ho))

theorem claim_claimed_inv (m : ShowSeatMap) (S : List Nat)
    (t now dur p : Nat) (m2 : ShowSeatMap)
    (h : m.claim S t now dur = (ClaimResult.claimed p, m2)) :
    S.filter (fun id => ! m.isAvailable id) = [] ∧
    m2 = { m with seats := m.seats.map (fun s =>
        if decide (s.seatId ∈ S) then
          { s with status := SeatStatus.held t (now + dur) } else s) } := by
  rw [ShowSeatMap.claim] at h
  by_cases hf : S.filter (fun id => ! m.isAvailable id) = []
  · rw [if_pos hf, Prod.mk.injEq] at h
    exact ⟨hf, h.2.symm⟩
  · rw [if_neg hf, Prod.mk.injEq] at h
    exact absurd h.1 (by simp)

theorem allHeldBy_after_claim (m : ShowSeatMap) (S : List Nat)
    (t now dur p : Nat) (m2 : ShowSeatMap)
    (h : m.claim S t now dur = (ClaimResult.claimed p, m2)) :
    ∀ id ∈ S, allHeldBy m2 id t (now + dur) := by
  obtain ⟨hf, hm⟩ := claim_claimed_inv m S t now dur p m2 h
  intro id hid
  subst hm
  constructor
  · have hav : m.isAvailable id = true := by
      by_contra hna
      have hmemf : id ∈ S.filter (fun i => ! m.isAvailable i) :=
        List.mem_filter.mpr ⟨hid, by simp [Bool.eq_false_iff.mpr hna]⟩
      rw [hf] at hmemf
      exact absurd hmemf (List.not_mem_nil id)
    rw [ShowSeatMap.isAvailable, List.any_eq_true] at hav
    obtain ⟨s, hs, hP⟩ := hav
    rw [Bool.and_eq_true, decide_eq_true_eq, decide_eq_true_eq] at hP
    refine ⟨_, List.mem_map_of_mem _ hs, ?_⟩
    have hb : s.seatId ∈ S := by rw [hP.1]; exact hid
    simp [hb, hP.1, hid]
  · intro s' hs' hsid'
    obtain ⟨s, hs, rfl⟩ := List.mem_map.mp hs'
    have hkeep : (if decide (s.seatId ∈ S) then
        { s with status := SeatStatus.held t (now + dur) } else s).seatId
          = s.seatId := by
      by_cases hb : s.seatId ∈ S <;> simp [hb]
    have hseq : s.seatId = id := hkeep ▸ hsid'
    rw [if_pos (by simp [hseq, hid])]

theorem isAvailable_claim_untouched (m : ShowSeatMap) (S : List Nat)
    (t now dur p : Nat) (m2 : ShowSeatMap)
    (h : m.claim S t now dur = (ClaimResult.claimed p, m2))
    (j : Nat) (hj : j ∉ S) :
    m2.isAvailable j = m.isAvailable j := by
  obtain ⟨hf, hm⟩ := claim_claimed_inv m S t now dur p m2 h
  subst hm
  apply isAvailable_map
  · intro s
    by_cases hb : s.seatId ∈ S <;> simp [hb]
  · intro s hs hsid
    rw [if_neg (by simp [hsid, hj])]


/-! ### The claims -/

/-- Claim C2: ShowSeatMap.claim is all-or-nothing.  For every set of requested
seat ids, if any requested seat is not AVAILABLE at evaluation time then the
entire claim call fails with the unavailable ids and the seat map is returned
unchanged; no partial claim of a subset ever occurs. -/
theorem claim_all_or_nothing (m : ShowSeatMap) (seatIds : List Nat)
    (holderToken now holdDuration : Nat)
    (h : ∃ id ∈ seatIds, m.isAvailable id = false) :
    ∃ unavailableSeatIds, unavailableSeatIds ≠ [] ∧
      m.claim seatIds holderToken now holdDuration =
        (ClaimResult.rejected unavailableSeatIds, m) := by
  obtain ⟨id, hid, hunav⟩ := h
  have hmemf : id ∈ seatIds.filter (fun i => ! m.isAvailable i) :=
    List.mem_filter.mpr ⟨hid, by simp [hunav]⟩
  exact ⟨_, List.ne_nil_of_mem hmemf, by
    rw [ShowSeatMap.claim, if_neg (List.ne_nil_of_mem hmemf)]⟩


/-- Witness for claim C2 at a concrete input: with seats 1 and 2 already held on
the demo show, a claim of seats 2 and 3 fails outright and changes nothing. -/
theorem claim_all_or_nothing_witness :
    (∃ id ∈ [2, 3], demoHeldMap.isAvailable id = false) ∧
    ∃ unavailableSeatIds, unavailableSeatIds ≠ [] ∧
      demoHeldMap.claim [2, 3] 7 5 300 =
        (ClaimResult.rejected unavailableSeatIds, demoHeldMap) :=
  ⟨⟨2, by decide, by decide⟩,
   claim_all_or_nothing demoHeldMap [2, 3] 7 5 300 ⟨2, by decide, by decide⟩⟩

/-- Claim C1: for two claim attempts with overlapping seat sets on the same
show, serialized by the per-show critical section, at most one succeeds: after
one claim succeeds, every overlapping claim is rejected with a SeatUnavailable
list that contains every overlapping seat id — and exactly the overlapping ids
when the rest of the losing seats are still available — and no other caller
can successfully claim or confirm any overlapping seat across any sequence of
operations that does not release, confirm or reap the winning hold. -/
theorem claim_mutual_exclusion
    (m mAfter : ShowSeatMap) (seatIds1 seatIds2 : List Nat)
    (token1 now1 dur1 price1 : Nat)
    (hclaim : m.claim seatIds1 token1 now1 dur1
        = (ClaimResult.claimed price1, mAfter)) :
    (∀ id ∈ seatIds1, allHeldBy mAfter id token1 (now1 + dur1)) ∧
    (∀ id, id ∈ seatIds1 → id ∈ seatIds2 →
      ∀ token2 now2 dur2, ∃ unavailableSeatIds,
        mAfter.claim seatIds2 token2 now2 dur2
          = (ClaimResult.rejected unavailableSeatIds, mAfter) ∧
        id ∈ unavailableSeatIds ∧
        ∀ j ∈ seatIds2, j ∈ seatIds1 → j ∈ unavailableSeatIds) ∧
    ((∃ id, id ∈ seatIds1 ∧ id ∈ seatIds2) →
      (∀ j ∈ seatIds2, j ∉ seatIds1 → m.isAvailable j = true) →
      ∀ token2 now2 dur2,
        mAfter.claim seatIds2 token2 now2 dur2
          = (ClaimResult.rejected
              (seatIds2.filter (fun j => decide (j ∈ seatIds1))), mAfter)) ∧
    (∀ ops : List SeatOp, (∀ op ∈ ops, preservesHold token1 (now1 + dur1) op) →
      ∀ id ∈ seatIds1,
        allHeldBy (execOps mAfter ops) id token1 (now1 + dur1) ∧
        (∀ S token2 now2 dur2, id ∈ S → ∃ unavailableSeatIds,
          (execOps mAfter ops).claim S token2 now2 dur2
            = (ClaimResult.rejected unavailableSeatIds, execOps mAfter ops) ∧
          id ∈ unavailableSeatIds) ∧
        (∀ S token2 bookingId now2, id ∈ S → token2 ≠ token1 →
          (execOps mAfter ops).confirm S token2 bookingId now2
            = (HoldResult.staleHold, execOps mAfter ops))) := by
  have hheld := allHeldBy_after_claim m seatIds1 token1 now1 dur1 price1 mAfter hclaim
  refine ⟨hheld, ?_, ?_, ?_⟩
  · intro id hid1 hid2 token2 now2 dur2
    obtain ⟨heq, hmem⟩ :=
      claim_rejected_of_overlap mAfter id token1 (now1 + dur1) seatIds2
        token2 now2 dur2 (hheld id hid1) hid2
    refine ⟨_, heq, hmem, ?_⟩
    intro j hj2 hj1
    refine List.mem_filter.mpr ⟨hj2, ?_⟩
    simp [isAvailable_eq_false_of_allHeldBy mAfter j token1 (now1 + dur1)
      (hheld j hj1)]
  · rintro ⟨id, hid1, hid2⟩ hside token2 now2 dur2
    obtain ⟨heq, _⟩ :=
      claim_rejected_of_overlap mAfter id token1 (now1 + dur1) seatIds2
        token2 now2 dur2 (hheld id hid1) hid2
    rw [heq, Prod.mk.injEq]
    refine ⟨congrArg ClaimResult.rejected (List.filter_congr ?_), rfl⟩
    intro j hj
    by_cases hj1 : j ∈ seatIds1
    · simp [isAvailable_eq_false_of_allHeldBy mAfter j token1 (now1 + dur1)
        (hheld j hj1), hj1]
    · have hav : m.isAvailable j = true := hside j hj hj1
      have huntouched := isAvailable_claim_untouched m seatIds1 token1 now1
        dur1 price1 mAfter hclaim j hj1
      simp [huntouched, hav, hj1]
  · intro ops hops id hid
    have hh := hold_invariant_ops ops mAfter id token1 (now1 + dur1)
      (hheld id hid) hops
    refine ⟨hh, ?_, ?_⟩
    · intro S token2 now2 dur2 hmem
      obtain ⟨heq, hm⟩ :=
        claim_rejected_of_overlap (execOps mAfter ops) id token1 (now1 + dur1)
          S token2 now2 dur2 hh hmem
      exact ⟨_, heq, hm⟩
    · intro S token2 bookingId now2 hmem ht
      exact confirm_stale_of_overlap (execOps mAfter ops) id token1
        (now1 + dur1) S token2 bookingId now2 hh hmem ht

/-- Witness for claim C1 at the concrete scenario of the spec: X claims seats
1 and 2 of the demo show; the overlapping claim by Y of seats 2 and 3 is rejected
listing exactly the overlapping seat 2.  Hypotheses of the theorem are
discharged by rfl and decide. -/
theorem claim_mutual_exclusion_witness :
    demoHeldMap.claim [2, 3] 99 5 300 =
      (ClaimResult.rejected [2], demoHeldMap) := by
  have h := (claim_mutual_exclusion demoShowSeatMap demoHeldMap [1, 2] [2, 3]
      10 0 300 400 rfl).2.2.1
  have h2 := h ⟨2, by decide, by decide⟩ (by decide) 99 5 300
  simpa using h2

/-- Counterexample to claim C3 as stated: at show 7 with seats 2 and 3 selected,
the posted booking body carries exactly the fields show_id and seat_ids — no
client-generated idempotency key of any spelling is present. -/
theorem handleBooking_body_lacks_idempotency_key :
    handleBookingRequest 7 [2, 3] = some { show_id := 7, seat_ids := [2, 3] } ∧
    ({ show_id := 7, seat_ids := [2, 3] } : BookingRequestBody).fields.map Prod.fst
      = ["show_id", "seat_ids"] ∧
    "idempotency_key" ∉
      (({ show_id := 7, seat_ids := [2, 3] } : BookingRequestBody).fields.map Prod.fst) ∧
    "idempotencyKey" ∉
      (({ show_id := 7, seat_ids := [2, 3] } : BookingRequestBody).fields.map Prod.fst) :=
  ⟨rfl, rfl, by decide, by decide⟩

/-- Claim C3 (amended): every booking request the client sends carries exactly
the fields show_id and seat_ids — the show id and the selected seat ids; no
idempotency key is included. -/
theorem handleBookingRequest_body_fields (showId : Nat) (sel : List Nat)
    (b : BookingRequestBody) (hb : handleBookingRequest showId sel = some b) :
    b.show_id = showId ∧ b.seat_ids = sel ∧
    b.fields.map Prod.fst = ["show_id", "seat_ids"] := by
  obtain ⟨hbeq, hne⟩ := handleBookingRequest_some_inv showId sel b hb
  subst hbeq
  exact ⟨rfl, rfl, rfl⟩

/-- Witness for the amended claim C3 at a concrete input. -/
theorem handleBookingRequest_body_fields_witness :
    ({ show_id := 7, seat_ids := [2, 3] } : BookingRequestBody).show_id = 7 ∧
    ({ show_id := 7, seat_ids := [2, 3] } : BookingRequestBody).seat_ids = [2, 3] ∧
    ({ show_id := 7, seat_ids := [2, 3] } : BookingRequestBody).fields.map Prod.fst
      = ["show_id", "seat_ids"] :=
  handleBookingRequest_body_fields 7 [2, 3] _ rfl

/-- Claim C4: on a 409 seat-conflict response the client surfaces the detail
carrying the unavailable seat ids, re-fetches seat availability, and clears the
seat selection, so the view re-renders deterministically without polling. -/
theorem handleBookingResponse_conflict_409 (detail : String) (sel : List Nat)
    (hd : detail ≠ "") :
    handleBookingResponse 409 detail sel =
      { bookingSuccess := false, bookingError := "Unavailable: " ++ detail,
        refetchSeats := true, selectionAfter := [] } := by
  simp [handleBookingResponse, hd]

/-- Witness for claim C4 at a concrete input. -/
theorem handleBookingResponse_conflict_409_witness :
    ("Seats 2, 3 are unavailable" ≠ ("" : String)) ∧
    handleBookingResponse 409 "Seats 2, 3 are unavailable" [2, 3] =
      { bookingSuccess := false,
        bookingError := "Unavailable: " ++ "Seats 2, 3 are unavailable",
        refetchSeats := true, selectionAfter := [] } :=
  ⟨by decide, handleBookingResponse_conflict_409 _ _ (by decide)⟩

/-- Claim C5: the client distinguishes the three failure classes.  A 402
response yields a payment-failure message carrying the provider detail while
keeping the selection and not re-fetching; a 409 response re-fetches and clears;
any other non-ok status yields the generic message; and the three user-visible
outcomes are pairwise different. -/
theorem handleBookingResponse_distinguishes_failures (status : Nat)
    (detail : String) (sel : List Nat)
    (hnotok : ¬ (200 ≤ status ∧ status < 300))
    (h409 : status ≠ 409) (h402 : status ≠ 402) :
    (handleBookingResponse 402 detail sel).bookingError =
        "Payment Failed: " ++ (if detail = "" then "Please check your card." else detail) ∧
    (handleBookingResponse 402 detail sel).refetchSeats = false ∧
    (handleBookingResponse 402 detail sel).selectionAfter = sel ∧
    (handleBookingResponse 409 detail sel).refetchSeats = true ∧
    (handleBookingResponse 409 detail sel).selectionAfter = [] ∧
    handleBookingResponse 402 detail sel ≠ handleBookingResponse 409 detail sel ∧
    handleBookingResponse 402 detail sel ≠ handleBookingResponse status detail sel ∧
    handleBookingResponse 409 detail sel ≠ handleBookingResponse status detail sel := by
  have e402 : handleBookingResponse 402 detail sel =
      { bookingSuccess := false,
        bookingError :=
          "Payment Failed: " ++ (if detail = "" then "Please check your card." else detail),
        refetchSeats := false, selectionAfter := sel } := by
    simp [handleBookingResponse]
  have e409 : handleBookingResponse 409 detail sel =
      { bookingSuccess := false,
        bookingError :=
          "Unavailable: " ++ (if detail = "" then "Some seats were just taken." else detail),
        refetchSeats := true, selectionAfter := [] } := by
    simp [handleBookingResponse]
  have egen : handleBookingResponse status detail sel =
      { bookingSuccess := false,
        bookingError := (if detail = "" then "Booking failed. Please try again." else detail),
        refetchSeats := false, selectionAfter := sel } := by
    simp [handleBookingResponse, hnotok, h409, h402]
  refine ⟨by rw [e402], by rw [e402], by rw [e402], by rw [e409], by rw [e409],
    ?_, ?_, ?_⟩
  · rw [e402, e409]
    intro h
    have := congrArg BookingOutcome.refetchSeats h
    simp at this
  · rw [e402, egen]
    intro h
    have hmsg := congrArg BookingOutcome.bookingError h
    simp only at hmsg
    by_cases hd : detail = ""
    · rw [hd] at hmsg
      exact absurd hmsg (by decide)
    · rw [if_neg hd, if_neg hd] at hmsg
      have h2 := congrArg String.length hmsg
      rw [String.length_append] at h2
      have h3 : ("Payment Failed: ").length = 16 := by decide
      omega
  · rw [e409, egen]
    intro h
    have := congrArg BookingOutcome.refetchSeats h
    simp at this

/-- Witness for claim C5 at a concrete input: status 500, detail x, one seat
selected. -/
theorem handleBookingResponse_distinguishes_failures_witness :
    (handleBookingResponse 402 "x" [1]).bookingError =
        "Payment Failed: " ++ (if "x" = "" then "Please check your card." else "x") ∧
    (handleBookingResponse 402 "x" [1]).refetchSeats = false ∧
    (handleBookingResponse 402 "x" [1]).selectionAfter = [1] ∧
    (handleBookingResponse 409 "x" [1]).refetchSeats = true ∧
    (handleBookingResponse 409 "x" [1]).selectionAfter = [] ∧
    handleBookingResponse 402 "x" [1] ≠ handleBookingResponse 409 "x" [1] ∧
    handleBookingResponse 402 "x" [1] ≠ handleBookingResponse 500 "x" [1] ∧
    handleBookingResponse 409 "x" [1] ≠ handleBookingResponse 500 "x" [1] :=
  handleBookingResponse_distinguishes_failures 500 "x" [1]
    (by decide) (by decide) (by decide)

/-- Claim C6: the quoted total price displayed to the user equals the sum of
the unit prices of exactly the seats whose id is selected, and the booking
request carries no client-supplied price total — its only fields are show_id
and seat_ids. -/
theorem totalPrice_integrity (seats : List Seat) (selectedSeatIds : List Nat)
    (showId : Nat) :
    totalPrice seats selectedSeatIds =
      (seats.map (fun s => if s.id ∈ selectedSeatIds then s.price else 0)).sum ∧
    ∀ b, handleBookingRequest showId selectedSeatIds = some b →
      b.fields.map Prod.fst = ["show_id", "seat_ids"] := by
  constructor
  · rw [totalPrice, foldl_price_acc, zero_add, selectedSeats]
    induction seats with
    | nil => rfl
    | cons s t ih =>
      by_cases h : s.id ∈ selectedSeatIds <;> simp [List.filter_cons, h, ih]
  · intro b hb
    obtain ⟨hbeq, _⟩ := handleBookingRequest_some_inv showId selectedSeatIds b hb
    subst hbeq
    rfl

/-- Witness for claim C6 at a concrete input: selecting seats 1 and 3 of the
demo list quotes 250 + 200. -/
theorem totalPrice_integrity_witness :
    totalPrice demoSeats [1, 3] =
      (demoSeats.map (fun s => if s.id ∈ [1, 3] then s.price else 0)).sum ∧
    ∀ b, handleBookingRequest 5 [1, 3] = some b →
      b.fields.map Prod.fst = ["show_id", "seat_ids"] :=
  totalPrice_integrity demoSeats [1, 3] 5

/-- Claim C7: every booking request the client submits has a non-empty list of
distinct seat ids — the selection holds no duplicates after any sequence of
seat clicks starting from the empty selection, and handleBooking never issues a
request when the selection is empty. -/
theorem applyClicks_request_nonempty_distinct (clicks : List Seat)
    (showId : Nat) (b : BookingRequestBody)
    (hb : handleBookingRequest showId (applyClicks clicks) = some b) :
    b.seat_ids ≠ [] ∧ b.seat_ids.Nodup ∧
    handleBookingRequest showId [] = none := by
  obtain ⟨hbeq, hne⟩ := handleBookingRequest_some_inv showId (applyClicks clicks) b hb
  subst hbeq
  exact ⟨hne, applyClicks_nodup clicks, rfl⟩

/-- Witness for claim C7 at a concrete input: one click on an available seat
followed by booking. -/
theorem applyClicks_request_nonempty_distinct_witness :
    ({ show_id := 1, seat_ids := [2] } : BookingRequestBody).seat_ids ≠ [] ∧
    ({ show_id := 1, seat_ids := [2] } : BookingRequestBody).seat_ids.Nodup ∧
    handleBookingRequest 1 [] = none :=
  applyClicks_request_nonempty_distinct
    [{ id := 2, row := "A", number := 2, type := "Normal", price := 200,
       is_available := true }] 1 _ rfl

/-- Claim C8: a click on a seat whose is_available flag is false leaves the
selection unchanged, whatever the prior click sequence produced. -/
theorem handleSeatClick_unavailable_noop (seat : Seat) (sel : List Nat)
    (h : seat.is_available = false) : handleSeatClick seat sel = sel := by
  simp [handleSeatClick, h]

/-- Witness for claim C8 at a concrete input. -/
theorem handleSeatClick_unavailable_noop_witness :
    (Seat.mk 4 "A" 4 "Normal" 150 false).is_available = false ∧
    handleSeatClick (Seat.mk 4 "A" 4 "Normal" 150 false) [1, 2] = [1, 2] :=
  ⟨rfl, handleSeatClick_unavailable_noop _ _ rfl⟩

/-- Claim C9: clicking the same available seat twice is an involution on the
selection — starting from any duplicate-free selection, the selection after the
two clicks contains exactly the same ids as before them. -/
theorem handleSeatClick_involution (seat : Seat) (sel : List Nat)
    (havail : seat.is_available = true) (_hnodup : sel.Nodup) :
    ∀ id, id ∈ handleSeatClick seat (handleSeatClick seat sel) ↔ id ∈ sel := by
  intro id
  by_cases hmem : seat.id ∈ sel
  · have h1 : handleSeatClick seat sel = sel.filter (fun id => decide (id ≠ seat.id)) := by
      simp [handleSeatClick, havail, hmem]
    have h2 : seat.id ∉ sel.filter (fun id => decide (id ≠ seat.id)) := by
      simp [List.mem_filter]
    rw [h1]
    rw [show handleSeatClick seat (sel.filter (fun id => decide (id ≠ seat.id)))
        = sel.filter (fun id => decide (id ≠ seat.id)) ++ [seat.id] by
      simp [handleSeatClick, havail, h2]]
    by_cases hid : id = seat.id <;> simp [List.mem_filter, hid, hmem]
  · have h1 : handleSeatClick seat sel = sel ++ [seat.id] := by
      simp [handleSeatClick, havail, hmem]
    have h2 : seat.id ∈ sel ++ [seat.id] := by simp
    rw [h1]
    rw [show handleSeatClick seat (sel ++ [seat.id])
        = (sel ++ [seat.id]).filter (fun id => decide (id ≠ seat.id)) by
      simp [handleSeatClick, havail, h2]]
    by_cases hid : id = seat.id <;> simp [List.mem_filter, hid, hmem]

/-- Witness for claim C9 at a concrete input: seat 2 toggled twice over the
selection 1, 3. -/
theorem handleSeatClick_involution_witness :
    (Seat.mk 2 "A" 2 "Normal" 200 true).is_available = true ∧
    ([1, 3] : List Nat).Nodup ∧
    ∀ id, id ∈ handleSeatClick (Seat.mk 2 "A" 2 "Normal" 200 true)
        (handleSeatClick (Seat.mk 2 "A" 2 "Normal" 200 true) [1, 3]) ↔
      id ∈ [1, 3] :=
  ⟨rfl, by decide, handleSeatClick_involution _ _ rfl (by decide)⟩

/-- Claim C10: the row grouping partitions the fetched seats — every group
keyed by a row label holds exactly the seats of that row, the row keys are
distinct and are exactly the rows occurring among the seats, the rendered
sequence of groups contains each fetched seat exactly once, and the row labels
are presented in lexicographically sorted order. -/
theorem seatsByRow_partition_sorted (seats : List Seat) :
    (∀ r g, lookupRow (seatsByRow seats) r = some g →
        g = seats.filter (fun s => decide (s.row = r))) ∧
    ((seatsByRow seats).map Prod.fst).Nodup ∧
    (∀ r, r ∈ (seatsByRow seats).map Prod.fst ↔ ∃ s ∈ seats, s.row = r) ∧
    List.Perm (displayedSeats seats) seats ∧
    List.Sorted (fun a b : String => a ≤ b) (rows seats) := by
  refine ⟨?_, keys_seatsByRow_nodup seats, keys_seatsByRow_mem seats,
    displayedSeats_perm seats, rows_sorted seats⟩
  intro r g hg
  rw [lookupRow_seatsByRow] at hg
  by_cases h : seats.any (fun s => decide (s.row = r)) = true
  · rw [if_pos h] at hg
    exact (Option.some_injective _ hg).symm
  · rw [if_neg h] at hg
    exact absurd hg (by simp)

/-- Witness for claim C10 at the concrete demo seat list. -/
theorem seatsByRow_partition_sorted_witness :
    (∀ r g, lookupRow (seatsByRow demoSeats) r = some g →
        g = demoSeats.filter (fun s => decide (s.row = r))) ∧
    ((seatsByRow demoSeats).map Prod.fst).Nodup ∧
    (∀ r, r ∈ (seatsByRow demoSeats).map Prod.fst ↔ ∃ s ∈ demoSeats, s.row = r) ∧
    List.Perm (displayedSeats demoSeats) demoSeats ∧
    List.Sorted (fun a b : String => a ≤ b) (rows demoSeats) :=
  seatsByRow_partition_sorted demoSeats
